import Mathlib

/-!
Shallow embedding of `main.go` from the rd450x-fan-control utility, together
with theorems checking the claims of the natural-language specification against it.

The Go sources shell out to `ipmitool`; external invocations are modelled by a
`World` record providing the result of each invocation, and every modelled command
returns the trace of invocations it performed, the diagnostic lines it printed,
and whether it terminated the process via `os.Exit`.
-/

set_option autoImplicit false
set_option maxRecDepth 65536

namespace RD450X

/-! ### Models of the Go standard-library string and number primitives used by `main.go` -/

/-- Model of Go `unicode.IsSpace`: the Unicode White_Space property. -/
def goIsSpace (c : Char) : Bool :=
  c = ' ' || c = '\t' || c = '\n' || c.toNat = 11 || c.toNat = 12 || c = '\r' ||
  c.toNat = 0x85 || c.toNat = 0xA0 || c.toNat = 0x1680 ||
  (0x2000 ≤ c.toNat && c.toNat ≤ 0x200A) ||
  c.toNat = 0x2028 || c.toNat = 0x2029 || c.toNat = 0x202F ||
  c.toNat = 0x205F || c.toNat = 0x3000

/-- Model of Go `strings.TrimSpace`. -/
def goTrimSpace (s : String) : String :=
  String.mk (((s.data.dropWhile goIsSpace).reverse.dropWhile goIsSpace).reverse)

/-- Accumulator-style worker for `goFields`. -/
def fieldsAux : List Char → List Char → List String
  | [], acc => if acc.isEmpty then [] else [String.mk acc.reverse]
  | c :: rest, acc =>
    if goIsSpace c then
      if acc.isEmpty then fieldsAux rest []
      else String.mk acc.reverse :: fieldsAux rest []
    else fieldsAux rest (c :: acc)

/-- Model of Go `strings.Fields`: split around runs of white space. -/
def goFields (s : String) : List String := fieldsAux s.data []

/-- Model of Go `strings.ToUpper`. The Go function applies the full Unicode
upper-case mapping; this model applies the ASCII mapping, which agrees with it
on every character relevant to the substring tests performed by `main.go`. -/
def goToUpper (s : String) : String := String.mk (s.data.map Char.toUpper)

/-- Model of Go `strings.ToLower`, ASCII mapping (see `goToUpper`). -/
def goToLower (s : String) : String := String.mk (s.data.map Char.toLower)

/-- Split a character list at every occurrence of `sep`. -/
def splitOnChar (sep : Char) : List Char → List (List Char)
  | [] => [[]]
  | c :: rest =>
    let r := splitOnChar sep rest
    if c = sep then [] :: r else (c :: r.headD []) :: r.tail

/-- Model of Go `strings.Split(s, sep)` for a one-character separator. -/
def goSplit (s : String) (sep : Char) : List String :=
  (splitOnChar sep s.data).map String.mk

/-- Substring occurrence test on character lists. -/
def goContainsList (needle : List Char) : List Char → Bool
  | [] => needle.isPrefixOf []
  | c :: t => needle.isPrefixOf (c :: t) || goContainsList needle t

/-- Model of Go `strings.Contains`. -/
def goContains (s sub : String) : Bool := goContainsList sub.data s.data

/-- Model of Go `strings.TrimSuffix`. -/
def goTrimSuffix (s suffix : String) : String :=
  if suffix.data.isSuffixOf s.data then
    String.mk (s.data.take (s.data.length - suffix.data.length))
  else s

def isDecDigit (c : Char) : Bool := '0' ≤ c && c ≤ '9'

def isHexDigitCh (c : Char) : Bool :=
  isDecDigit c || ('a' ≤ c && c ≤ 'f') || ('A' ≤ c && c ≤ 'F')

def decDigitVal (c : Char) : ℕ := c.toNat - '0'.toNat

def hexDigitVal (c : Char) : ℕ :=
  if isDecDigit c then c.toNat - '0'.toNat
  else if 'a' ≤ c && c ≤ 'f' then c.toNat - 'a'.toNat + 10
  else c.toNat - 'A'.toNat + 10

/-- Value of a digit string under the given base. -/
def digitsVal (base : ℕ) (val : Char → ℕ) (ds : List Char) : ℕ :=
  ds.foldl (fun acc c => acc * base + val c) 0

/-- Model of Go `strconv.ParseInt(s, 16, 64)` as used by `hexToPercent`:
optional sign, then a nonempty run of hexadecimal digits (no `0x` prefix and no
underscores, since the base is given explicitly), failing on syntax errors and
on values outside the signed 64-bit range. -/
def goParseIntHex (s : String) : Option Int :=
  let p : Bool × List Char :=
    match s.data with
    | '+' :: t => (false, t)
    | '-' :: t => (true, t)
    | t => (false, t)
  let neg := p.1
  let ds := p.2
  if ds.isEmpty || !ds.all isHexDigitCh then none
  else
    let n := digitsVal 16 hexDigitVal ds
    if neg then
      if n ≤ 2 ^ 63 then some (-(n : Int)) else none
    else
      if n ≤ 2 ^ 63 - 1 then some (n : Int) else none

/-- Model of Go `strconv.Atoi` (that is, `strconv.ParseInt(s, 10, 0)` on a
64-bit platform): optional sign, then a nonempty run of decimal digits (no
underscores), failing on syntax errors and on 64-bit overflow. -/
def goAtoi (s : String) : Option Int :=
  let p : Bool × List Char :=
    match s.data with
    | '+' :: t => (false, t)
    | '-' :: t => (true, t)
    | t => (false, t)
  let neg := p.1
  let ds := p.2
  if ds.isEmpty || !ds.all isDecDigit then none
  else
    let n := digitsVal 10 decDigitVal ds
    if neg then
      if n ≤ 2 ^ 63 then some (-(n : Int)) else none
    else
      if n ≤ 2 ^ 63 - 1 then some (n : Int) else none

/-! ### `hexToPercent` (main.go lines 42-49) -/

/-- `hexToPercent` converts a hex string (e.g. "32") to a percentage string
("50%"), returning "N/A" when parsing fails. -/
def hexToPercent (hexStr : String) : String :=
  match goParseIntHex hexStr with
  | none => "N/A"
  | some dec => toString dec ++ "%"

/-! ### Model of Go `strconv.ParseFloat(s, 64)` and `fmt.Sprintf("%.0f", f)` -/

/-- A nonnegative rational magnitude, kept as an unreduced fraction of
naturals; `den` is positive by construction (a power of ten, sixteen or
two). -/
structure Mag where
  num : ℕ
  den : ℕ
deriving DecidableEq

/-- Result of a successful Go `ParseFloat`. A finite value carries the exact
value of the `float64` that `ParseFloat` produces — the literal rounded to
the nearest representable value, ties to even (see `roundMagToFloat64`) — as
an unreduced fraction whose denominator is a power of two. The sign is kept
separately so that negative zero renders as "-0", as `%.0f` renders it. -/
inductive GoFloat where
  | nan : GoFloat
  | inf (neg : Bool) : GoFloat
  | finite (neg : Bool) (mag : Mag) : GoFloat
deriving DecidableEq

/-- Model of Go `strconv.special`: the whole-string values `inf`, `infinity`
(optionally signed) and `nan` (unsigned), case-insensitively. -/
def parseSpecial (cs : List Char) : Option GoFloat :=
  let p : Bool × Bool × List Char :=
    match cs with
    | '+' :: t => (true, false, t)
    | '-' :: t => (true, true, t)
    | t => (false, false, t)
  let low := p.2.2.map Char.toLower
  if low = "inf".data || low = "infinity".data then some (.inf p.2.1)
  else if !p.1 && low = "nan".data then some .nan
  else none

/-- Worker for `underscoreOK`; `saw` is `'^'` (start), `'0'` (digit or base
prefix), `'_'`, or `'!'` (other), exactly as in Go `strconv.underscoreOK`. -/
def underscoreOKAux (hex : Bool) : Char → List Char → Bool
  | saw, [] => saw != '_'
  | saw, c :: rest =>
    if isDecDigit c || (hex && isHexDigitCh c) then underscoreOKAux hex '0' rest
    else if c = '_' then saw == '0' && underscoreOKAux hex '_' rest
    else saw != '_' && underscoreOKAux hex '!' rest

/-- Model of Go `strconv.underscoreOK`: underscores may only separate digits or
follow a base prefix. -/
def underscoreOK (cs : List Char) : Bool :=
  let cs1 :=
    match cs with
    | c :: t => if c = '+' || c = '-' then t else cs
    | [] => cs
  match cs1 with
  | '0' :: x :: rest =>
    if x.toLower = 'x' then underscoreOKAux true '0' rest
    else if x.toLower = 'b' || x.toLower = 'o' then underscoreOKAux false '0' rest
    else underscoreOKAux false '0' (x :: rest)
  | _ => underscoreOKAux false '^' cs1

/-- Consume a run of digits, returning accumulated value, digit count, rest. -/
def takeDigits (isD : Char → Bool) (val : Char → ℕ) (base : ℕ) :
    List Char → ℕ → ℕ → ℕ × ℕ × List Char
  | [], acc, cnt => (acc, cnt, [])
  | c :: rest, acc, cnt =>
    if isD c then takeDigits isD val base rest (acc * base + val c) (cnt + 1)
    else (acc, cnt, c :: rest)

/-- Parse an exponent part (after the `e`/`p` marker): optional sign and a
nonempty digit run consuming the whole rest. -/
def parseExpPart (cs : List Char) : Option Int :=
  let p : Bool × List Char :=
    match cs with
    | '+' :: t => (false, t)
    | '-' :: t => (true, t)
    | t => (false, t)
  let r := takeDigits isDecDigit decDigitVal 10 p.2 0 0
  if r.2.1 = 0 || !r.2.2.isEmpty then none
  else some (if p.1 then -(r.1 : Int) else (r.1 : Int))

/-- Round a nonnegative magnitude to the nearest integer, ties to even, as the
correctly-rounded `%.0f` formatting does. -/
def roundHalfEvenNonneg (q : Mag) : ℕ :=
  let n := q.num / q.den
  let rem := q.num % q.den
  if 2 * rem < q.den then n
  else if q.den < 2 * rem then n + 1
  else if n % 2 = 0 then n else n + 1

/-- Scale a magnitude by `base ^ ex`. -/
def Mag.scale (q : Mag) (base : ℕ) (ex : Int) : Mag :=
  if 0 ≤ ex then ⟨q.num * base ^ ex.toNat, q.den⟩
  else ⟨q.num, q.den * base ^ (-ex).toNat⟩

/-- `⌊log2 n⌋` for `n ≥ 1`, with an explicit fuel argument as the structural
termination bound; `n` halves at every step, so any fuel `≥ n` suffices. -/
def log2Aux : ℕ → ℕ → ℕ
  | 0, _ => 0
  | fuel + 1, n => if n ≤ 1 then 0 else log2Aux fuel (n / 2) + 1

/-- `⌊log2 n⌋` for `n ≥ 1` (0 at 0). -/
def natLog2 (n : ℕ) : ℕ := log2Aux n n

/-- Round the positive magnitude `num/den` to the nearest `float64` value
(round to nearest, ties to even), in the IEEE-754 binary64 grid: unit in the
last place `2 ^ (⌊log2 (num/den)⌋ - 52)`, never below the subnormal unit
`2 ^ (-1074)`. A magnitude below `2 ^ (-1080)` certainly rounds to zero and is
shortcut so that `⌊log2⌋` is only taken of a value `≥ 1` (after pre-scaling by
`2 ^ 1100`). The result is `none` when the rounded value reaches `2 ^ 1024`:
that is overflow to infinity, the only case in which Go `ParseFloat` reports
`ErrRange`. Underflow is not an error in Go: it rounds to zero with a nil
error. The returned value is the exact rounded `float64` as a fraction with a
power-of-two denominator. -/
def roundMagToFloat64 (num den : ℕ) : Option Mag :=
  if num = 0 then some ⟨0, 1⟩
  else if num * Nat.shiftLeft 1 1080 < den then some ⟨0, 1⟩
  else
    let s : Int := (natLog2 (num * Nat.shiftLeft 1 1100 / den) : Int) - 1100
    let e : Int := max (s - 52) (-1074)
    if 0 ≤ e then
      let m := roundHalfEvenNonneg ⟨num, den * Nat.shiftLeft 1 e.toNat⟩
      let v := m * Nat.shiftLeft 1 e.toNat
      if Nat.shiftLeft 1 1024 ≤ v then none else some ⟨v, 1⟩
    else
      let m := roundHalfEvenNonneg ⟨num * Nat.shiftLeft 1 (-e).toNat, den⟩
      some ⟨m, Nat.shiftLeft 1 (-e).toNat⟩

/-- Classify a parsed magnitude by rounding it to the nearest `float64`:
overflow to infinity reports `ErrRange`, which `getStatus` treats as a parse
failure; underflow yields zero with no error. -/
def classifyMag (neg : Bool) (q : Mag) : Option GoFloat :=
  match roundMagToFloat64 q.num q.den with
  | none => none
  | some f => some (.finite neg f)

/-- Parse a decimal mantissa with optional fraction and optional exponent. -/
def parseDecNumeric (neg : Bool) (cs : List Char) : Option GoFloat :=
  let m := takeDigits isDecDigit decDigitVal 10 cs 0 0
  let dotted : Bool × List Char :=
    match m.2.2 with
    | '.' :: t => (true, t)
    | r => (false, r)
  let f :=
    if dotted.1 then takeDigits isDecDigit decDigitVal 10 dotted.2 0 0
    else ((0 : ℕ), (0 : ℕ), m.2.2)
  if m.2.1 + f.2.1 = 0 then none
  else
    let q : Mag := ⟨m.1 * 10 ^ f.2.1 + f.1, 10 ^ f.2.1⟩
    match f.2.2 with
    | [] => classifyMag neg q
    | e :: t =>
      if e.toLower = 'e' then
        match parseExpPart t with
        | none => none
        | some ex => classifyMag neg (q.scale 10 ex)
      else none

/-- Parse a hexadecimal mantissa (after `0x`) with its mandatory binary
exponent. -/
def parseHexNumeric (neg : Bool) (cs : List Char) : Option GoFloat :=
  let m := takeDigits isHexDigitCh hexDigitVal 16 cs 0 0
  let dotted : Bool × List Char :=
    match m.2.2 with
    | '.' :: t => (true, t)
    | r => (false, r)
  let f :=
    if dotted.1 then takeDigits isHexDigitCh hexDigitVal 16 dotted.2 0 0
    else ((0 : ℕ), (0 : ℕ), m.2.2)
  if m.2.1 + f.2.1 = 0 then none
  else
    let q : Mag := ⟨m.1 * 16 ^ f.2.1 + f.1, 16 ^ f.2.1⟩
    match f.2.2 with
    | p :: t =>
      if p.toLower = 'p' then
        match parseExpPart t with
        | none => none
        | some ex => classifyMag neg (q.scale 2 ex)
      else none
    | [] => none

/-- Model of Go `strconv.ParseFloat(s, 64)`, with `ErrRange` results mapped to
`none` because `getStatus` only distinguishes `err == nil`. -/
def goParseFloat (s : String) : Option GoFloat :=
  match parseSpecial s.data with
  | some f => some f
  | none =>
    if !underscoreOK s.data then none
    else
      let cs := s.data.filter (· ≠ '_')
      let p : Bool × List Char :=
        match cs with
        | '+' :: t => (false, t)
        | '-' :: t => (true, t)
        | t => (false, t)
      match p.2 with
      | '0' :: x :: rest =>
        if x.toLower = 'x' then parseHexNumeric p.1 rest
        else parseDecNumeric p.1 p.2
      | _ => parseDecNumeric p.1 p.2

/-- Model of Go `fmt.Sprintf("%.0f", f)`. -/
def fmtF0 : GoFloat → String
  | .nan => "NaN"
  | .inf neg => if neg then "-Inf" else "+Inf"
  | .finite neg mag => (if neg then "-" else "") ++ toString (roundHalfEvenNonneg mag)

/-! ### Data model (main.go lines 12-29) -/

/-- FanStatus represents fan telemetry data. -/
structure FanStatus where
  name : String
  rpm : String
  pwm : String
deriving DecidableEq

/-- ThermalStatus represents temperature and airflow data. -/
structure ThermalStatus where
  name : String
  value : String
deriving DecidableEq

/-- StatusReport is the combined object for JSON output. -/
structure StatusReport where
  fans : List FanStatus
  thermals : List ThermalStatus
deriving DecidableEq

/-! ### PWM fetch (main.go lines 51-71) and sensor-list parsing (136-215) -/

/-- The six fixed fan identifiers, in the order of main.go line 199. -/
def fanNames : List String :=
  ["System Fan1", "System Fan2", "System Fan3", "System Fan4", "CPU Fan1", "CPU Fan2"]

/-- The mapping built by `getPWMs` from the result of the raw `0x31` command:
empty when the command fails or returns fewer than 7 whitespace-separated
tokens, otherwise tokens 1-6 hex-decoded and keyed by the fixed fan names.
The Go map is modelled as an association list. -/
def pwmTokens : List String → List (String × String)
  | _ :: p1 :: p2 :: p3 :: p4 :: p5 :: p6 :: _ =>
    [("System Fan1", hexToPercent p1), ("System Fan2", hexToPercent p2),
     ("System Fan3", hexToPercent p3), ("System Fan4", hexToPercent p4),
     ("CPU Fan1", hexToPercent p5), ("CPU Fan2", hexToPercent p6)]
  | _ => []

def pwmsOf : Option String → List (String × String)
  | none => []
  | some out => pwmTokens (goFields out)

/-- State built line by line by the parsing loop of `getStatus` (main.go lines
148-196). The Go map is modelled as an association list where insertion
prepends, so `List.lookup` sees the most recent insertion, as the map does. -/
structure ParseState where
  rpmMap : List (String × String)
  thermals : List ThermalStatus
deriving DecidableEq

/-- Normalization applied to one thermal row (main.go lines 175-195):
reformat parseable values with zero decimals, rewrite the unit "degrees C" to
the degree symbol, drop readings that normalize to "0" degrees. -/
def normalizeThermal (name val unit : String) : Option ThermalStatus :=
  let cleanVal :=
    match goParseFloat val with
    | some f => fmtF0 f
    | none => val
  let cleanUnit := if unit = "degrees C" then "°C" else unit
  if cleanVal == "0" && cleanUnit == "°C" then none
  else some ⟨name, cleanVal ++ " " ++ cleanUnit⟩

/-- One iteration of the sensor-list parsing loop (main.go lines 152-196). -/
def processLine (st : ParseState) (line : String) : ParseState :=
  if goTrimSpace line = "" then st
  else
    let parts := goSplit line '|'
    if parts.length < 3 then st
    else
      match parts with
      | p0 :: p1 :: p2 :: _ =>
        let name := goTrimSpace p0
        let val := goTrimSpace p1
        let unit := goTrimSpace p2
        let lineUpper := goToUpper line
        if val == "na" && !goContains lineUpper "FAN" then st
        else if goContains lineUpper "FAN" && !goContains lineUpper "POWER" then
          if val != "na" then { st with rpmMap := (name, val ++ " RPM") :: st.rpmMap }
          else st
        else if goContains lineUpper "TEMP" || goContains lineUpper "AIRFLOW" then
          match normalizeThermal name val unit with
          | some t => { st with thermals := st.thermals ++ [t] }
          | none => st
        else st
      | _ => st

/-- The whole parsing loop of `getStatus` over the sensor-list output. -/
def parseSensors (out : String) : ParseState :=
  (goSplit out '\n').foldl processLine ⟨[], []⟩

/-- Step 2 of `getStatus` (main.go lines 198-215): the exact 6-fan array.
A missing Go map entry yields the zero value "", which is replaced by "N/A". -/
def buildFans (pwms rpmMap : List (String × String)) : List FanStatus :=
  fanNames.map fun n =>
    let pwm0 := (List.lookup n pwms).getD ""
    let pwm := if pwm0 = "" then "N/A" else pwm0
    let rpm0 := (List.lookup n rpmMap).getD ""
    let rpm := if rpm0 = "" then "N/A" else rpm0
    ⟨n, rpm, pwm⟩

/-- The status report `getStatus` constructs from the raw `0x31` PWM fetch
result and the sensor-list output. -/
def buildReport (pwmRes : Option String) (sensorOut : String) : StatusReport :=
  let st := parseSensors sensorOut
  ⟨buildFans (pwmsOf pwmRes) st.rpmMap, st.thermals⟩

/-! ### Execution model: external invocations, printed output, process exit -/

/-- One external invocation: a raw OEM command `ipmitool raw 0x2e <args>`, or
`ipmitool sensor list`. -/
inductive Call where
  | raw (args : List String) : Call
  | sensorList : Call
deriving DecidableEq

/-- Environment of a run: whether `ipmitool` is on the search path, the result
of each raw OEM invocation (`none` models a failed invocation; the error text
carried by a failure is not modelled), and the stdout of
`ipmitool sensor list` (`none` again modelling failure). -/
structure World where
  hasIpmitool : Bool
  raw : List String → Option String
  sensor : Option String

/-- Whether a modelled function returned normally or called `os.Exit`. -/
inductive Outcome (α : Type) where
  | ret (a : α) : Outcome α
  | exited (code : ℕ) : Outcome α
deriving DecidableEq

/-- Result of running a modelled function: the external invocations it
performed in order, the diagnostic lines it printed, and its outcome. -/
structure Eff (α : Type) where
  calls : List Call
  output : List String
  result : Outcome α
deriving DecidableEq

/-- Sequencing of modelled steps; `os.Exit` aborts the continuation. -/
def Eff.andThen {α β : Type} (e : Eff α) (f : α → Eff β) : Eff β :=
  match e.result with
  | .exited c => ⟨e.calls, e.output, .exited c⟩
  | .ret a =>
    let e2 := f a
    ⟨e.calls ++ e2.calls, e.output ++ e2.output, e2.result⟩

/-- Drop the returned value (callers of `getStatus` ignore it). -/
def Eff.discard {α : Type} (e : Eff α) : Eff Unit :=
  ⟨e.calls, e.output,
    match e.result with
    | .exited c => .exited c
    | .ret _ => .ret ()⟩

/-- The process exit code produced by running `e` as the whole of `main`: the
code passed to `os.Exit`, or 0 on normal return. -/
def exitCodeOf {α : Type} (e : Eff α) : ℕ :=
  match e.result with
  | .exited c => c
  | .ret _ => 0

/-- An apostrophe, used in the quoted words of some diagnostic strings. -/
def sq : String := String.singleton (Char.ofNat 39)

/-- `getPWMs` (main.go lines 52-71): one raw `0x31` invocation, never fatal. -/
def getPWMsM (w : World) : Eff (List (String × String)) :=
  ⟨[.raw ["0x31"]], [], .ret (pwmsOf (w.raw ["0x31"]))⟩

/-- Go `fmt.Sprintf("%02d", n)` for the values reachable in `getSpeed`. -/
def fmt02d (n : Int) : String :=
  if 0 ≤ n ∧ n < 10 then "0" ++ toString n else toString n

/-- `getSpeed` (main.go lines 74-99). -/
def getSpeedM (w : World) (idStr : String) : Eff Unit :=
  if goToLower idStr == "all" || idStr == "0" || idStr == "00" then
    ⟨[], ["Error: To view all fans, use the " ++ sq ++ "status" ++ sq ++ " command."], .ret ()⟩
  else
    match goAtoi idStr with
    | none => ⟨[], ["Error: Fan ID must be between 01 and 06"], .ret ()⟩
    | some id =>
      if id < 1 ∨ 6 < id then ⟨[], ["Error: Fan ID must be between 01 and 06"], .ret ()⟩
      else
        match w.raw ["0x31"] with
        | none => ⟨[.raw ["0x31"]], ["IPMI Error"], .exited 1⟩
        | some out =>
          let parts := goFields out
          if id.toNat < parts.length then
            ⟨[.raw ["0x31"]],
             ["Fan " ++ fmt02d id ++ " PWM: " ++ hexToPercent (parts.getD id.toNat "")], .ret ()⟩
          else
            ⟨[.raw ["0x31"]], ["Error: Unexpected IPMI response format or missing data"], .ret ()⟩

/-- Go `fmt.Sprintf("%x", n)` for a nonnegative value, without the prefix. -/
def natToHex (n : ℕ) : String := String.mk (Nat.toDigits 16 n)

/-- The id normalization of `setSpeed` (main.go lines 111-120): "all"/"0"/"00"
(case-insensitively) become the broadcast id "00" (second component `true`),
an id of byte length 1 is zero-padded, anything else passes through. -/
def normalizeSetID (idStr : String) : String × Bool :=
  if goToLower idStr == "all" || idStr == "0" || idStr == "00" then ("00", true)
  else if idStr.utf8ByteSize = 1 then ("0" ++ idStr, false)
  else (idStr, false)

/-- `setSpeed` (main.go lines 102-133). -/
def setSpeedM (w : World) (idStr speedStr : String) : Eff Unit :=
  match goAtoi speedStr with
  | none => ⟨[], ["Error: Speed must be an integer between 0 and 100"], .ret ()⟩
  | some speed =>
    if speed < 0 ∨ 100 < speed then
      ⟨[], ["Error: Speed must be an integer between 0 and 100"], .ret ()⟩
    else
      let hexSpeed := "0x" ++ natToHex speed.toNat
      let fid := normalizeSetID idStr
      match w.raw ["0x30", "00", fid.1, hexSpeed] with
      | none => ⟨[.raw ["0x30", "00", fid.1, hexSpeed]], ["IPMI Error"], .exited 1⟩
      | some _ =>
        ⟨[.raw ["0x30", "00", fid.1, hexSpeed]],
         [if fid.2 then "All fans successfully set to " ++ toString speed ++ "%"
          else "Fan " ++ fid.1 ++ " successfully set to " ++ toString speed ++ "%"], .ret ()⟩

/-- `getStatus` (main.go lines 136-247). The rendering of the report (ASCII
tables or indented JSON) and the error text of a failed invocation are not
modelled; the returned value is the report that would be rendered, `none` when
the sensor-list invocation failed and no report is emitted. -/
def getStatusM (w : World) (asJson : Bool) : Eff (Option StatusReport) :=
  match w.sensor with
  | none => ⟨[.raw ["0x31"], .sensorList], ["Error fetching sensor data"], .ret none⟩
  | some out =>
    ⟨[.raw ["0x31"], .sensorList], [], .ret (some (buildReport (w.raw ["0x31"]) out))⟩

/-- The fan-name-to-id table of the testrun branch (main.go lines 292-299).
Go iterates maps in an unspecified order; the model fixes declaration order,
and every property proved about the testrun is order-independent. -/
def fanIDPairs : List (String × String) :=
  [("System Fan1", "01"), ("System Fan2", "02"), ("System Fan3", "03"),
   ("System Fan4", "04"), ("CPU Fan1", "05"), ("CPU Fan2", "06")]

/-- The `savedSpeeds` map of the testrun branch (main.go lines 301-311): fans
with a valid (not "N/A", nonempty) PWM reading, keyed by id, valued by the
reading with its percent sign stripped. -/
def savedSpeedsOf (pwms : List (String × String)) : List (String × String) :=
  fanIDPairs.filterMap fun p =>
    let pwmStr := (List.lookup p.1 pwms).getD ""
    if pwmStr != "N/A" && pwmStr != "" then some (p.2, goTrimSuffix pwmStr "%")
    else none

/-- The restore loop of the testrun branch (main.go lines 322-325). -/
def runRestores (w : World) : List (String × String) → Eff Unit
  | [] => ⟨[], [], .ret ()⟩
  | p :: rest => (setSpeedM w p.1 p.2).andThen fun _ => runRestores w rest

/-- The `testrun` branch of `main` (main.go lines 285-326). Its bare progress
prints are not modelled. -/
def testrunM (w : World) : Eff Unit :=
  (getPWMsM w).andThen fun originalPWMs =>
    (setSpeedM w "all" "40").andThen fun _ =>
      (getSpeedM w "01").andThen fun _ =>
        (getStatusM w false).discard.andThen fun _ =>
          runRestores w (savedSpeedsOf originalPWMs)

/-- Usage text printed when no subcommand is given. -/
def usageLines : List String :=
  ["Usage:", "  rd450x-fan-control status [--json]", "  rd450x-fan-control get <id>",
   "  rd450x-fan-control set <id|all> <speed>"]

/-- `main` (main.go lines 255-330), applied to `os.Args[1:]`. -/
def mainRun (w : World) (argv : List String) : Eff Unit :=
  if !w.hasIpmitool then
    ⟨[], ["Error: " ++ sq ++ "ipmitool" ++ sq ++
          " not found in PATH. Install it via: apt install ipmitool"], .exited 1⟩
  else
    match argv with
    | [] => ⟨[], usageLines, .ret ()⟩
    | cmd :: rest =>
      if cmd = "status" then (getStatusM w (rest.headD "" == "--json")).discard
      else if cmd = "get" then
        match rest with
        | [] => ⟨[], ["Error: Missing arguments. Example: rd450x-fan-control get 01"], .ret ()⟩
        | id :: _ => getSpeedM w id
      else if cmd = "set" then
        match rest with
        | id :: sp :: _ => setSpeedM w id sp
        | _ => ⟨[], ["Error: Missing arguments. Example: rd450x-fan-control set all 50"], .ret ()⟩
      else if cmd = "testrun" then testrunM w
      else ⟨[], ["Error: Unknown command " ++ sq ++ cmd ++ sq], .ret ()⟩

/-- A `setSpeed` invocation that terminates the process: a valid speed whose
write command fails. -/
def setFails (w : World) (idStr spStr : String) : Prop :=
  ∃ n : Int, goAtoi spStr = some n ∧ 0 ≤ n ∧ n ≤ 100 ∧
    w.raw ["0x30", "00", (normalizeSetID idStr).1, "0x" ++ natToHex n.toNat] = none

/-- A `getSpeed` invocation that terminates the process: a valid id whose raw
read fails. -/
def getFails (w : World) (idStr : String) : Prop :=
  (goToLower idStr == "all" || idStr == "0" || idStr == "00") = false ∧
  (∃ n : Int, goAtoi idStr = some n ∧ 1 ≤ n ∧ n ≤ 6) ∧ w.raw ["0x31"] = none

/-- The conditions under which the testrun choreography terminates with exit
code 1: its `set all 40` fails, its `get 01` read fails, or one of its restore
`set` calls fails. -/
def testrunFails (w : World) : Prop :=
  setFails w "all" "40" ∨ w.raw ["0x31"] = none ∨
    ∃ p ∈ savedSpeedsOf (pwmsOf (w.raw ["0x31"])), setFails w p.1 p.2

/-- A concrete healthy environment: every invocation succeeds and the raw PWM
read reports 50% (0x32) on the system fans and 75% (0x4b) on the CPU fans. -/
def wOK : World :=
  ⟨true, fun args => some (if args = ["0x31"] then "20 32 32 32 32 4b 4b" else ""), some ""⟩

/-- A concrete environment where every invocation succeeds but the raw PWM
read reports 120% (0x78) on every fan. -/
def wOver : World :=
  ⟨true, fun args => some (if args = ["0x31"] then "20 78 78 78 78 78 78" else ""), some ""⟩

end RD450X

namespace RD450X

/-- A decimal rendering followed by a percent sign is never the string "N/A". -/
theorem toString_append_percent_ne (n : Int) : toString n ++ "%" ≠ "N/A" := by
  intro h
  have h1 : (toString n).data ++ ['%'] = ['N', '/', 'A'] := congrArg String.data h
  have h2 := congrArg List.reverse h1
  rw [List.reverse_append] at h2
  rw [show (['%'] : List Char).reverse = ['%'] from rfl] at h2
  rw [show (['N', '/', 'A'] : List Char).reverse = ['A', '/', 'N'] from rfl] at h2
  obtain ⟨hc, -⟩ := List.cons.inj h2
  exact absurd hc (by decide)

/-- C4: for every string `s`, `hexToPercent s` returns "N/A" exactly when `s`
fails to parse as a base-16 integer, and otherwise returns the decimal
rendering of the parsed value followed by "%", with no range validation or
clamping; in particular `hexToPercent "32" = "50%"`, `hexToPercent "zz" =
"N/A"`, and the above-100 value `hexToPercent "78" = "120%"` is returned
as-is. -/
theorem C4_hexToPercent_spec :
    (∀ s : String,
      (hexToPercent s = "N/A" ↔ goParseIntHex s = none) ∧
      (∀ n : Int, goParseIntHex s = some n → hexToPercent s = toString n ++ "%")) ∧
    hexToPercent "32" = "50%" ∧ hexToPercent "zz" = "N/A" ∧ hexToPercent "78" = "120%" := by
  refine ⟨fun s => ⟨?_, ?_⟩, by decide, by decide, by decide⟩
  · unfold hexToPercent
    cases h : goParseIntHex s with
    | none => simp
    | some n =>
      simp only []
      constructor
      · intro hh; exact absurd hh (toString_append_percent_ne n)
      · intro hh; exact absurd hh (by simp)
  · intro n h
    unfold hexToPercent
    rw [h]

/-- Witness for C4 at the concrete inputs "32" and "zz". -/
theorem C4_hexToPercent_spec_witness :
    hexToPercent "zz" = "N/A" ∧ hexToPercent "32" = toString (50 : Int) ++ "%" :=
  ⟨(C4_hexToPercent_spec.1 "zz").1.mpr (by decide),
   (C4_hexToPercent_spec.1 "32").2 50 (by decide)⟩

/-- Fewer than 7 tokens produce an empty PWM mapping. -/
theorem pwmTokens_eq_nil (l : List String) (h : l.length < 7) : pwmTokens l = [] := by
  rcases l with _ | ⟨a, _ | ⟨b, _ | ⟨c, _ | ⟨d, _ | ⟨e, _ | ⟨f, _ | ⟨g, t⟩⟩⟩⟩⟩⟩⟩
  all_goals first
    | rfl
    | (exfalso; simp only [List.length] at h; omega)

/-- C1: for every PWM-fetch result and sensor-list output, the fan sequence of the status report contains exactly the 6 fixed fan identifiers in the fixed order,
with "N/A" substituted for any missing PWM or RPM value; in particular, when
the raw PWM command fails or returns fewer than 7 whitespace-separated tokens,
the PWM lookup is an empty mapping and the PWM of every fan reports "N/A". -/
theorem C1_status_fans (pwmRes : Option String) (sensorOut : String) :
    (buildReport pwmRes sensorOut).fans.map FanStatus.name = fanNames ∧
    (buildReport pwmRes sensorOut).fans.length = 6 ∧
    (∀ f ∈ (buildReport pwmRes sensorOut).fans,
      (List.lookup f.name (pwmsOf pwmRes) = none → f.pwm = "N/A") ∧
      (List.lookup f.name (parseSensors sensorOut).rpmMap = none → f.rpm = "N/A")) ∧
    ((pwmRes = none ∨ ∀ s, pwmRes = some s → (goFields s).length < 7) →
      pwmsOf pwmRes = [] ∧ ∀ f ∈ (buildReport pwmRes sensorOut).fans, f.pwm = "N/A") := by
  refine ⟨?_, ?_, ?_, ?_⟩
  · rfl
  · simp [buildReport, buildFans, fanNames]
  · intro f hf
    simp only [buildReport, buildFans, List.mem_map] at hf
    obtain ⟨n, -, rfl⟩ := hf
    constructor
    · intro h; simp only [h]; simp
    · intro h; simp only [h]; simp
  · intro h
    have hnil : pwmsOf pwmRes = [] := by
      rcases h with h | h
      · rw [h]; rfl
      · cases pwmRes with
        | none => rfl
        | some s => exact pwmTokens_eq_nil (goFields s) (h s rfl)
    refine ⟨hnil, ?_⟩
    intro f hf
    simp only [buildReport, buildFans, List.mem_map, hnil] at hf
    obtain ⟨n, -, rfl⟩ := hf
    simp

/-- Witness for the conditional part of C1: a failed PWM fetch yields an empty
mapping and all-"N/A" PWMs. -/
theorem C1_status_fans_witness :
    pwmsOf none = [] ∧ ∀ f ∈ (buildReport none "").fans, f.pwm = "N/A" :=
  (C1_status_fans none "").2.2.2 (Or.inl rfl)

/-- C5: in sensor-list parsing, a row with at least 3 fields whose value field
is the literal "na" is skipped entirely when the line does not contain "FAN"
(case-insensitively), and contributes no RPM entry when it does; the skip
filter applies only to non-fan rows. -/
theorem C5_na_rows (st : ParseState) (line : String)
    (hlen : 3 ≤ (goSplit line '|').length)
    (hnb : goTrimSpace line ≠ "")
    (hval : goTrimSpace ((goSplit line '|').getD 1 "") = "na") :
    (goContains (goToUpper line) "FAN" = false → processLine st line = st) ∧
    (goContains (goToUpper line) "FAN" = true → (processLine st line).rpmMap = st.rpmMap) := by
  rcases hp : goSplit line '|' with _ | ⟨p0, _ | ⟨p1, _ | ⟨p2, rest⟩⟩⟩ <;>
    rw [hp] at hlen hval <;> simp only [List.length] at hlen <;> try omega
  simp only [List.getD, List.get?, Option.getD] at hval
  unfold processLine
  rw [if_neg hnb, hp]
  have hlt : ¬ ((p0 :: p1 :: p2 :: rest).length < 3) := by simp [List.length]
  rw [if_neg hlt]
  simp only
  constructor
  · intro hfan
    rw [if_pos]
    simp [hval, hfan]
  · intro hfan
    rw [if_neg (by simp [hval, hfan])]
    by_cases hpow : goContains (goToUpper line) "POWER"
    · rw [if_neg (by simp [hfan, hpow])]
      split
      · split
        · rfl
        · rfl
      · rfl
    · rw [if_pos (by simp [hfan, hpow])]
      rw [if_neg (by simp [hval])]

/-- Witness for C5 at a concrete disconnected thermal row. -/
theorem C5_na_rows_witness :
    processLine ⟨[], []⟩ "CPU1 Temp        | na         | degrees C | na" = ⟨[], []⟩ :=
  (C5_na_rows ⟨[], []⟩ "CPU1 Temp        | na         | degrees C | na"
    (by decide) (by decide) (by decide)).1 (by decide)

/-- C3: for every thermal row, a value that parses as a floating-point number
is reformatted with zero decimal places and otherwise the original value
string is kept; the unit "degrees C" is rewritten to the degree-Celsius symbol
while other units pass through; a reading that normalizes to exactly "0" with
the Celsius unit is dropped, but value "0.0" with unit "CFM" is retained as
"0 CFM"; surviving readings are appended in encounter order. Parsing follows
`float64` semantics: an underflowing reading such as "1e-999" parses to zero
without error (so its Celsius row is dropped), and "2.5000000000000001"
rounds to the `float64` 2.5 and formats as "2" (ties to even). -/
theorem C3_thermal_rows :
    (∀ name val unit : String, ∀ f : GoFloat, goParseFloat val = some f →
      normalizeThermal name val unit =
        (if fmtF0 f == "0" && (if unit = "degrees C" then "°C" else unit) == "°C" then none
         else some ⟨name, fmtF0 f ++ " " ++ (if unit = "degrees C" then "°C" else unit)⟩)) ∧
    (∀ name val unit : String, goParseFloat val = none →
      normalizeThermal name val unit =
        (if val == "0" && (if unit = "degrees C" then "°C" else unit) == "°C" then none
         else some ⟨name, val ++ " " ++ (if unit = "degrees C" then "°C" else unit)⟩)) ∧
    (∀ name : String, normalizeThermal name "0.0" "degrees C" = none) ∧
    (∀ name : String, normalizeThermal name "0.0" "CFM" = some ⟨name, "0 CFM"⟩) ∧
    (∀ name : String, normalizeThermal name "1e-999" "degrees C" = none) ∧
    (∀ name : String,
      normalizeThermal name "2.5000000000000001" "degrees C" = some ⟨name, "2 °C"⟩) ∧
    (∀ (st : ParseState) (line : String),
      (processLine st line).thermals = st.thermals ∨
      ∃ t, (processLine st line).thermals = st.thermals ++ [t]) := by
  have h00 : goParseFloat "0.0" = some (GoFloat.finite false ⟨0, 1⟩) := by decide
  have h1e : goParseFloat "1e-999" = some (GoFloat.finite false ⟨0, 1⟩) := by decide
  have h25 : goParseFloat "2.5000000000000001" =
      some (GoFloat.finite false ⟨5629499534213120, 2251799813685248⟩) := by decide
  refine ⟨?_, ?_, ?_, ?_, ?_, ?_, ?_⟩
  · intro name val unit f hf
    unfold normalizeThermal
    rw [hf]
  · intro name val unit hf
    unfold normalizeThermal
    rw [hf]
  · intro name
    unfold normalizeThermal
    rw [h00]
    simp only []
    rw [if_pos (by decide)]
  · intro name
    unfold normalizeThermal
    rw [h00]
    simp only []
    rw [if_neg (by decide)]
    exact congrArg some (congrArg (ThermalStatus.mk name) (by decide))
  · intro name
    unfold normalizeThermal
    rw [h1e]
    simp only []
    rw [if_pos (by decide)]
  · intro name
    unfold normalizeThermal
    rw [h25]
    simp only []
    rw [if_neg (by decide)]
    exact congrArg some (congrArg (ThermalStatus.mk name) (by decide))
  · intro st line
    unfold processLine
    dsimp only
    repeat' split
    all_goals first
      | (left; rfl)
      | (right; exact ⟨_, rfl⟩)

/-- Witness for C3 at concrete rows: a parseable reading is reformatted with
zero decimals and Celsius unit rewritten, the two "0.0" cases, the underflow
case and the `float64`-rounding case. -/
theorem C3_thermal_rows_witness :
    normalizeThermal "CPU1 Temp" "35.000" "degrees C" = some ⟨"CPU1 Temp", "35 °C"⟩ ∧
    normalizeThermal "CPU1 Temp" "0.0" "degrees C" = none ∧
    normalizeThermal "Airflow rate" "0.0" "CFM" = some ⟨"Airflow rate", "0 CFM"⟩ ∧
    normalizeThermal "PCH Temp" "1e-999" "degrees C" = none ∧
    normalizeThermal "VR Temp" "2.5000000000000001" "degrees C" = some ⟨"VR Temp", "2 °C"⟩ := by
  refine ⟨?_, C3_thermal_rows.2.2.1 "CPU1 Temp", C3_thermal_rows.2.2.2.1 "Airflow rate",
    C3_thermal_rows.2.2.2.2.1 "PCH Temp", C3_thermal_rows.2.2.2.2.2.1 "VR Temp"⟩
  have h := C3_thermal_rows.1 "CPU1 Temp" "35.000" "degrees C"
    (GoFloat.finite false ⟨4925812092436480, 140737488355328⟩) (by decide)
  rw [h]
  decide

/-- C6: `set 1 s` and `set 01 s` issue the identical write command with fan id
"01"; the ids "all" (case-insensitively), "0" and "00" normalize to the
broadcast identifier "00"; any other id of byte length other than 1 is passed
through as-is, with no upper-bound validation. -/
theorem C6_set_id_normalization :
    (∀ (w : World) (s : String), setSpeedM w "1" s = setSpeedM w "01" s) ∧
    (∀ (w : World) (s : String) (n : Int), goAtoi s = some n → 0 ≤ n → n ≤ 100 →
      (setSpeedM w "1" s).calls = [Call.raw ["0x30", "00", "01", "0x" ++ natToHex n.toNat]]) ∧
    (∀ id : String, (goToLower id == "all" || id == "0" || id == "00") = true →
      normalizeSetID id = ("00", true)) ∧
    (∀ id : String, (goToLower id == "all" || id == "0" || id == "00") = false →
      id.utf8ByteSize ≠ 1 → normalizeSetID id = (id, false)) := by
  refine ⟨?_, ?_, ?_, ?_⟩
  · intro w s
    unfold setSpeedM
    rw [show normalizeSetID "1" = normalizeSetID "01" from by decide]
  · intro w s n hs h0 h100
    unfold setSpeedM
    rw [hs]
    dsimp only
    rw [if_neg (by omega)]
    rw [show normalizeSetID "1" = ("01", false) from by decide]
    dsimp only
    cases w.raw ["0x30", "00", "01", "0x" ++ natToHex n.toNat] <;> rfl
  · intro id h
    unfold normalizeSetID
    rw [h]
    rfl
  · intro id h h1
    unfold normalizeSetID
    rw [h]
    simp only [Bool.false_eq_true, if_false, if_neg h1]

/-- Witness for C6: `set 1 45` and `set 01 45` issue the same write command
with id "01", and "ALL" normalizes to the broadcast id. -/
theorem C6_set_id_normalization_witness :
    (setSpeedM ⟨true, fun _ => some "", some ""⟩ "1" "45").calls =
      [Call.raw ["0x30", "00", "01", "0x" ++ natToHex (45 : Int).toNat]] ∧
    normalizeSetID "ALL" = ("00", true) ∧
    normalizeSetID "07" = ("07", false) :=
  ⟨C6_set_id_normalization.2.1 ⟨true, fun _ => some "", some ""⟩ "45" 45
      (by decide) (by decide) (by decide),
   C6_set_id_normalization.2.2.1 "ALL" (by decide),
   C6_set_id_normalization.2.2.2 "07" (by decide) (by decide)⟩

/-- C7: `get` accepts only an id whose value is an integer in [1,6]; the
inputs "all"/"0"/"00" are rejected with a guidance message directing to the
status command, any other id not an integer in [1,6] is rejected with a
validation error, and in every rejection case no external invocation is
performed; an accepted id performs exactly the raw read. -/
theorem C7_get_validation (w : World) (id : String) :
    ((goToLower id == "all" || id == "0" || id == "00") = true →
      getSpeedM w id =
        ⟨[], ["Error: To view all fans, use the " ++ sq ++ "status" ++ sq ++ " command."],
         .ret ()⟩) ∧
    ((goToLower id == "all" || id == "0" || id == "00") = false →
      (goAtoi id = none ∨ ∃ n : Int, goAtoi id = some n ∧ (n < 1 ∨ 6 < n)) →
      getSpeedM w id = ⟨[], ["Error: Fan ID must be between 01 and 06"], .ret ()⟩) ∧
    (∀ n : Int, (goToLower id == "all" || id == "0" || id == "00") = false →
      goAtoi id = some n → 1 ≤ n → n ≤ 6 →
      (getSpeedM w id).calls = [Call.raw ["0x31"]]) := by
  refine ⟨?_, ?_, ?_⟩
  · intro h
    unfold getSpeedM
    rw [h]
    rfl
  · intro h hrej
    unfold getSpeedM
    rw [h]
    simp only [Bool.false_eq_true, if_false]
    rcases hrej with hnone | ⟨n, hn, hout⟩
    · rw [hnone]
    · rw [hn]
      dsimp only
      rw [if_pos hout]
  · intro n h hn h1 h6
    unfold getSpeedM
    rw [h, hn]
    simp only [Bool.false_eq_true, if_false]
    rw [if_neg (by omega)]
    cases hr : w.raw ["0x31"] with
    | none => rfl
    | some out =>
      dsimp only
      split <;> rfl

/-- Witness for C7 at the concrete rejected inputs "00", "all", "07". -/
theorem C7_get_validation_witness :
    getSpeedM ⟨true, fun _ => some "", some ""⟩ "00" =
      ⟨[], ["Error: To view all fans, use the " ++ sq ++ "status" ++ sq ++ " command."],
       .ret ()⟩ ∧
    getSpeedM ⟨true, fun _ => some "", some ""⟩ "all" =
      ⟨[], ["Error: To view all fans, use the " ++ sq ++ "status" ++ sq ++ " command."],
       .ret ()⟩ ∧
    getSpeedM ⟨true, fun _ => some "", some ""⟩ "07" =
      ⟨[], ["Error: Fan ID must be between 01 and 06"], .ret ()⟩ :=
  ⟨(C7_get_validation ⟨true, fun _ => some "", some ""⟩ "00").1 (by decide),
   (C7_get_validation ⟨true, fun _ => some "", some ""⟩ "all").1 (by decide),
   (C7_get_validation ⟨true, fun _ => some "", some ""⟩ "07").2.1 (by decide)
     (Or.inr ⟨7, by decide, by decide⟩)⟩

/-- C8: for every id and for every speed argument that is not an integer in
[0,100], `set` reports the range error and performs no action: no external
invocation and no process exit. -/
theorem C8_set_speed_validation (w : World) (id s : String)
    (h : goAtoi s = none ∨ ∃ n : Int, goAtoi s = some n ∧ (n < 0 ∨ 100 < n)) :
    setSpeedM w id s = ⟨[], ["Error: Speed must be an integer between 0 and 100"], .ret ()⟩ := by
  unfold setSpeedM
  rcases h with hnone | ⟨n, hn, hout⟩
  · rw [hnone]
  · rw [hn]
    dsimp only
    rw [if_pos hout]

/-- Witness for C8 at the concrete rejected invocation `set all 150`. -/
theorem C8_set_speed_validation_witness :
    setSpeedM ⟨true, fun _ => some "", some ""⟩ "all" "150" =
      ⟨[], ["Error: Speed must be an integer between 0 and 100"], .ret ()⟩ :=
  C8_set_speed_validation ⟨true, fun _ => some "", some ""⟩ "all" "150"
    (Or.inr ⟨150, by decide, by decide⟩)

/-- C10: when the sensor-list invocation fails during `status`, the operation
prints the error and returns normally; the process exits 0, no report is
emitted (in either output mode), and the PWM fetch was already performed. -/
theorem C10_status_sensor_failure (w : World) (asJson : Bool) (rest : List String)
    (hI : w.hasIpmitool = true) (hs : w.sensor = none) :
    getStatusM w asJson =
      ⟨[Call.raw ["0x31"], Call.sensorList], ["Error fetching sensor data"], .ret none⟩ ∧
    exitCodeOf (mainRun w ("status" :: rest)) = 0 := by
  have hg : ∀ b, getStatusM w b =
      ⟨[Call.raw ["0x31"], Call.sensorList], ["Error fetching sensor data"], .ret none⟩ := by
    intro b
    unfold getStatusM
    rw [hs]
  refine ⟨hg asJson, ?_⟩
  unfold mainRun
  rw [hI]
  simp only [Bool.not_true, Bool.false_eq_true, if_false]
  rw [if_pos trivial, hg]
  rfl

/-- Sequencing after a normal return accumulates the continuation. -/
theorem Eff.andThen_ret {α β : Type} (e : Eff α) (f : α → Eff β) (a : α)
    (h : e.result = .ret a) :
    e.andThen f = ⟨e.calls ++ (f a).calls, e.output ++ (f a).output, (f a).result⟩ := by
  unfold Eff.andThen
  rw [h]

/-- Sequencing after `os.Exit` drops the continuation. -/
theorem Eff.andThen_exited {α β : Type} (e : Eff α) (f : α → Eff β) (c : ℕ)
    (h : e.result = .exited c) :
    e.andThen f = ⟨e.calls, e.output, .exited c⟩ := by
  unfold Eff.andThen
  rw [h]

/-- `setSpeed` either returns normally or exits with code 1. -/
theorem setSpeedM_result_cases (w : World) (idStr spStr : String) :
    (setSpeedM w idStr spStr).result = .ret () ∨
    (setSpeedM w idStr spStr).result = .exited 1 := by
  unfold setSpeedM
  cases goAtoi spStr with
  | none => left; rfl
  | some n =>
    try dsimp only
    split
    · left; rfl
    · try dsimp only
      cases w.raw ["0x30", "00", (normalizeSetID idStr).1, "0x" ++ natToHex n.toNat]
      · right; rfl
      · left; rfl

/-- `setSpeed` exits exactly when the speed is valid and the write fails. -/
theorem setSpeedM_exit_iff (w : World) (idStr spStr : String) :
    (setSpeedM w idStr spStr).result = .exited 1 ↔ setFails w idStr spStr := by
  unfold setSpeedM setFails
  cases hs : goAtoi spStr with
  | none => simp
  | some n =>
    try dsimp only
    by_cases hr : n < 0 ∨ 100 < n
    · rw [if_pos hr]
      try dsimp only
      constructor
      · intro h; exact absurd h (by simp)
      · rintro ⟨m, hm, h0, h100, -⟩
        injection hm with he
        subst he
        rcases hr with hr | hr <;> omega
    · rw [if_neg hr]
      push_neg at hr
      try dsimp only
      cases hw : w.raw ["0x30", "00", (normalizeSetID idStr).1, "0x" ++ natToHex n.toNat] with
      | none =>
        try dsimp only
        constructor
        · rintro -; exact ⟨n, rfl, hr.1, hr.2, hw⟩
        · rintro -; rfl
      | some v =>
        try dsimp only
        constructor
        · intro h; exact absurd h (by simp)
        · rintro ⟨m, hm, h0, h100, hc⟩
          injection hm with he
          subst he
          rw [hw] at hc
          exact absurd hc (by simp)

/-- The calls a `setSpeed` invocation performs, characterized. -/
theorem setSpeedM_calls_mem (w : World) (idStr spStr : String) (c : Call) :
    c ∈ (setSpeedM w idStr spStr).calls ↔
      ∃ n : Int, goAtoi spStr = some n ∧ 0 ≤ n ∧ n ≤ 100 ∧
        c = .raw ["0x30", "00", (normalizeSetID idStr).1, "0x" ++ natToHex n.toNat] := by
  unfold setSpeedM
  cases hs : goAtoi spStr with
  | none => simp
  | some n =>
    try dsimp only
    by_cases hr : n < 0 ∨ 100 < n
    · rw [if_pos hr]
      try dsimp only
      simp only [List.not_mem_nil, false_iff]
      rintro ⟨m, hm, h0, h100, -⟩
      injection hm with he
      subst he
      rcases hr with hr | hr <;> omega
    · rw [if_neg hr]
      push_neg at hr
      try dsimp only
      cases hw : w.raw ["0x30", "00", (normalizeSetID idStr).1, "0x" ++ natToHex n.toNat] <;>
        · try dsimp only
          rw [List.mem_singleton]
          constructor
          · intro hc; exact ⟨n, rfl, hr.1, hr.2, hc⟩
          · rintro ⟨m, hm, h0, h100, hc⟩
            injection hm with he
            subst he
            exact hc

/-- The single call a valid `setSpeed` performs. -/
theorem setSpeedM_calls_eq (w : World) (idStr spStr : String) (n : Int)
    (hs : goAtoi spStr = some n) (h0 : 0 ≤ n) (h100 : n ≤ 100) :
    (setSpeedM w idStr spStr).calls =
      [Call.raw ["0x30", "00", (normalizeSetID idStr).1, "0x" ++ natToHex n.toNat]] := by
  unfold setSpeedM
  rw [hs]
  try dsimp only
  rw [if_neg (by omega)]
  try dsimp only
  cases w.raw ["0x30", "00", (normalizeSetID idStr).1, "0x" ++ natToHex n.toNat] <;> rfl

/-- When every write invocation succeeds, `setSpeed` returns normally. -/
theorem setSpeedM_ret_of_writes (w : World)
    (hW : ∀ rest, (w.raw ("0x30" :: rest)).isSome = true) (idStr spStr : String) :
    (setSpeedM w idStr spStr).result = .ret () := by
  rcases setSpeedM_result_cases w idStr spStr with h | h
  · exact h
  · obtain ⟨n, -, -, -, hnone⟩ := (setSpeedM_exit_iff w idStr spStr).mp h
    have hW1 := hW ["00", (normalizeSetID idStr).1, "0x" ++ natToHex n.toNat]
    rw [hnone] at hW1
    exact absurd hW1 (by simp)

/-- `getSpeed` either returns normally or exits with code 1. -/
theorem getSpeedM_result_cases (w : World) (idStr : String) :
    (getSpeedM w idStr).result = .ret () ∨ (getSpeedM w idStr).result = .exited 1 := by
  unfold getSpeedM
  split
  · left; rfl
  · cases goAtoi idStr with
    | none => left; rfl
    | some n =>
      try dsimp only
      split
      · left; rfl
      · cases w.raw ["0x31"] with
        | none => right; rfl
        | some out =>
          try dsimp only
          split
          · left; rfl
          · left; rfl

/-- `getSpeed` exits exactly when the id is valid and the raw read fails. -/
theorem getSpeedM_exit_iff (w : World) (idStr : String) :
    (getSpeedM w idStr).result = .exited 1 ↔ getFails w idStr := by
  unfold getSpeedM getFails
  by_cases hall : (goToLower idStr == "all" || idStr == "0" || idStr == "00") = true
  · rw [if_pos hall]
    try dsimp only
    constructor
    · intro h; exact absurd h (by simp)
    · rintro ⟨hf, -, -⟩; rw [hall] at hf; exact absurd hf (by simp)
  · rw [if_neg hall]
    rw [Bool.not_eq_true] at hall
    cases ha : goAtoi idStr with
    | none =>
      try dsimp only
      constructor
      · intro h; exact absurd h (by simp)
      · rintro ⟨-, ⟨n, hn, -⟩, -⟩; exact absurd hn (by simp)
    | some n =>
      try dsimp only
      by_cases hr : n < 1 ∨ 6 < n
      · rw [if_pos hr]
        try dsimp only
        constructor
        · intro h; exact absurd h (by simp)
        · rintro ⟨-, ⟨m, hm, h1, h6⟩, -⟩
          injection hm with he
          subst he
          rcases hr with hr | hr <;> omega
      · rw [if_neg hr]
        push_neg at hr
        cases hw : w.raw ["0x31"] with
        | none =>
          try dsimp only
          constructor
          · rintro -; exact ⟨hall, ⟨n, rfl, hr.1, hr.2⟩, rfl⟩
          · rintro -; rfl
        | some out =>
          try dsimp only
          constructor
          · intro h
            split at h <;> exact absurd h (by simp)
          · rintro ⟨-, -, hn⟩
            exact absurd hn (by simp)

/-- The only call `getSpeed` ever performs is the raw PWM read. -/
theorem getSpeedM_calls_sub (w : World) (idStr : String) :
    ∀ c ∈ (getSpeedM w idStr).calls, c = .raw ["0x31"] := by
  intro c hc
  unfold getSpeedM at hc
  repeat' split at hc
  all_goals try rw [apply_ite Eff.calls, ite_self] at hc
  all_goals simp_all

/-- `get 01` after a successful raw read: one read call, normal return. -/
theorem getSpeedM_01_some (w : World) (o : String) (h : w.raw ["0x31"] = some o) :
    (getSpeedM w "01").calls = [Call.raw ["0x31"]] ∧
    (getSpeedM w "01").result = .ret () := by
  unfold getSpeedM
  rw [show (goToLower "01" == "all" || "01" == "0" || "01" == "00") = false from by decide]
  simp only [Bool.false_eq_true, if_false]
  rw [show goAtoi "01" = some 1 from by decide]
  try dsimp only
  rw [if_neg (by omega)]
  rw [h]
  try dsimp only
  split <;> exact ⟨rfl, rfl⟩

/-- `get 01` after a failed raw read: one read call, exit 1. -/
theorem getSpeedM_01_none (w : World) (h : w.raw ["0x31"] = none) :
    getSpeedM w "01" = ⟨[Call.raw ["0x31"]], ["IPMI Error"], .exited 1⟩ := by
  unfold getSpeedM
  rw [show (goToLower "01" == "all" || "01" == "0" || "01" == "00") = false from by decide]
  simp only [Bool.false_eq_true, if_false]
  rw [show goAtoi "01" = some 1 from by decide]
  try dsimp only
  rw [if_neg (by omega)]
  rw [h]

/-- `getStatus` never exits and always performs exactly its two invocations. -/
theorem getStatusM_discard_spec (w : World) (b : Bool) :
    (getStatusM w b).discard.result = .ret () ∧
    (getStatusM w b).discard.calls = [Call.raw ["0x31"], Call.sensorList] := by
  unfold getStatusM Eff.discard
  cases w.sensor <;> exact ⟨rfl, rfl⟩

/-- The restore loop either returns normally or exits with code 1. -/
theorem runRestores_result_cases (w : World) (l : List (String × String)) :
    (runRestores w l).result = .ret () ∨ (runRestores w l).result = .exited 1 := by
  induction l with
  | nil => left; rfl
  | cons p rest ih =>
    unfold runRestores
    rcases setSpeedM_result_cases w p.1 p.2 with h | h
    · rw [Eff.andThen_ret _ _ () h]
      exact ih
    · rw [Eff.andThen_exited _ _ 1 h]
      right; rfl

/-- The restore loop exits exactly when one of its `set` calls fails. -/
theorem runRestores_exit_iff (w : World) (l : List (String × String)) :
    (runRestores w l).result = .exited 1 ↔ ∃ p ∈ l, setFails w p.1 p.2 := by
  induction l with
  | nil => simp [runRestores]
  | cons p rest ih =>
    unfold runRestores
    rcases setSpeedM_result_cases w p.1 p.2 with h | h
    · rw [Eff.andThen_ret _ _ () h]
      try dsimp only
      rw [ih]
      constructor
      · rintro ⟨q, hq, hf⟩
        exact ⟨q, List.mem_cons_of_mem _ hq, hf⟩
      · rintro ⟨q, hq, hf⟩
        rcases List.mem_cons.mp hq with rfl | hq'
        · exact absurd ((setSpeedM_exit_iff w q.1 q.2).mpr hf) (by rw [h]; simp)
        · exact ⟨q, hq', hf⟩
    · rw [Eff.andThen_exited _ _ 1 h]
      try dsimp only
      constructor
      · rintro -; exact ⟨p, List.mem_cons_self p rest, (setSpeedM_exit_iff w p.1 p.2).mp h⟩
      · rintro -; rfl

/-- Calls of the restore loop when every write invocation succeeds. -/
theorem runRestores_calls_of_writes (w : World)
    (hW : ∀ rest, (w.raw ("0x30" :: rest)).isSome = true)
    (l : List (String × String)) (c : Call) :
    c ∈ (runRestores w l).calls ↔ ∃ p ∈ l, c ∈ (setSpeedM w p.1 p.2).calls := by
  induction l with
  | nil => simp [runRestores]
  | cons p rest ih =>
    unfold runRestores
    rw [Eff.andThen_ret _ _ () (setSpeedM_ret_of_writes w hW p.1 p.2)]
    try dsimp only
    rw [List.mem_append, ih]
    constructor
    · rintro (hc | ⟨q, hq, hc⟩)
      · exact ⟨p, List.mem_cons_self p rest, hc⟩
      · exact ⟨q, List.mem_cons_of_mem _ hq, hc⟩
    · rintro ⟨q, hq, hc⟩
      rcases List.mem_cons.mp hq with rfl | hq'
      · exact Or.inl hc
      · exact Or.inr ⟨q, hq', hc⟩

/-- Membership in the saved-speeds table, characterized. -/
theorem mem_savedSpeedsOf (pwms : List (String × String)) (id sp : String) :
    (id, sp) ∈ savedSpeedsOf pwms ↔
      ∃ name, (name, id) ∈ fanIDPairs ∧
        (List.lookup name pwms).getD "" ≠ "N/A" ∧
        (List.lookup name pwms).getD "" ≠ "" ∧
        sp = goTrimSuffix ((List.lookup name pwms).getD "") "%" := by
  unfold savedSpeedsOf
  rw [List.mem_filterMap]
  constructor
  · rintro ⟨⟨name, pid⟩, hmem, hf⟩
    dsimp only at hf
    split at hf
    · rename_i hcond
      injection hf with hf1
      rw [Prod.ext_iff] at hf1
      obtain ⟨h1, h2⟩ := hf1
      dsimp only at h1 h2
      subst h1
      simp only [bne_iff_ne, Bool.and_eq_true, ne_eq] at hcond
      exact ⟨name, hmem, hcond.1, hcond.2, h2.symm⟩
    · exact absurd hf (by simp)
  · rintro ⟨name, hmem, hNA, hne, hsp⟩
    refine ⟨(name, id), hmem, ?_⟩
    try dsimp only
    rw [if_pos (by simp only [bne_iff_ne, Bool.and_eq_true, ne_eq]; exact ⟨hNA, hne⟩)]
    rw [hsp]

/-- The six fan ids of the testrun table pass through `setSpeed` id
normalization unchanged and are distinct from the broadcast id. -/
theorem fanIDPairs_id_props (name id : String) (h : (name, id) ∈ fanIDPairs) :
    (normalizeSetID id).1 = id ∧ id ≠ "00" := by
  simp only [fanIDPairs, List.mem_cons, List.not_mem_nil, or_false, Prod.mk.injEq] at h
  rcases h with ⟨-, rfl⟩ | ⟨-, rfl⟩ | ⟨-, rfl⟩ | ⟨-, rfl⟩ | ⟨-, rfl⟩ | ⟨-, rfl⟩ <;>
    exact ⟨by decide, by decide⟩

/-- The testrun table maps distinct names to distinct ids. -/
theorem fanIDPairs_id_inj (n1 n2 i : String)
    (h1 : (n1, i) ∈ fanIDPairs) (h2 : (n2, i) ∈ fanIDPairs) : n1 = n2 := by
  simp only [fanIDPairs, List.mem_cons, List.not_mem_nil, or_false, Prod.mk.injEq] at h1 h2
  rcases h1 with ⟨rfl, rfl⟩ | ⟨rfl, rfl⟩ | ⟨rfl, rfl⟩ | ⟨rfl, rfl⟩ | ⟨rfl, rfl⟩ | ⟨rfl, rfl⟩ <;>
    rcases h2 with ⟨rfl, h⟩ | ⟨rfl, h⟩ | ⟨rfl, h⟩ | ⟨rfl, h⟩ | ⟨rfl, h⟩ | ⟨rfl, h⟩ <;>
      first
        | rfl
        | exact absurd h (by decide)

/-- With `ipmitool` present, `main testrun` is the testrun choreography. -/
theorem mainRun_testrun (w : World) (hI : w.hasIpmitool = true) (rest : List String) :
    mainRun w ("testrun" :: rest) = testrunM w := by
  unfold mainRun
  rw [hI]
  rfl

/-- The testrun choreography either returns normally or exits with code 1. -/
theorem testrunM_result_cases (w : World) :
    (testrunM w).result = .ret () ∨ (testrunM w).result = .exited 1 := by
  unfold testrunM
  rw [Eff.andThen_ret (getPWMsM w) _ (pwmsOf (w.raw ["0x31"])) rfl]
  dsimp only
  rcases setSpeedM_result_cases w "all" "40" with h1 | h1
  · rw [Eff.andThen_ret _ _ () h1]
    dsimp only
    rcases getSpeedM_result_cases w "01" with h2 | h2
    · rw [Eff.andThen_ret _ _ () h2]
      dsimp only
      rw [Eff.andThen_ret _ _ () (getStatusM_discard_spec w false).1]
      dsimp only
      exact runRestores_result_cases w _
    · rw [Eff.andThen_exited _ _ 1 h2]
      right; rfl
  · rw [Eff.andThen_exited _ _ 1 h1]
    right; rfl

/-- The testrun choreography exits exactly under `testrunFails`. -/
theorem testrunM_exit_iff (w : World) :
    (testrunM w).result = .exited 1 ↔ testrunFails w := by
  unfold testrunM testrunFails
  rw [Eff.andThen_ret (getPWMsM w) _ (pwmsOf (w.raw ["0x31"])) rfl]
  dsimp only
  rcases setSpeedM_result_cases w "all" "40" with h1 | h1
  · rw [Eff.andThen_ret _ _ () h1]
    dsimp only
    have hns : ¬ setFails w "all" "40" := by
      intro hf
      have h2 := (setSpeedM_exit_iff w "all" "40").mpr hf
      rw [h1] at h2
      exact absurd h2 (by simp)
    rcases hro : w.raw ["0x31"] with _ | o
    · rw [Eff.andThen_exited _ _ 1 (by rw [getSpeedM_01_none w hro])]
      dsimp only
      constructor
      · rintro -; exact Or.inr (Or.inl rfl)
      · rintro -; rfl
    · rw [Eff.andThen_ret _ _ () (getSpeedM_01_some w o hro).2]
      dsimp only
      rw [Eff.andThen_ret _ _ () (getStatusM_discard_spec w false).1]
      dsimp only
      rw [runRestores_exit_iff]
      constructor
      · intro hx; exact Or.inr (Or.inr hx)
      · rintro (hf | hn | hx)
        · exact absurd hf hns
        · exact absurd hn (by simp)
        · exact hx
  · rw [Eff.andThen_exited _ _ 1 h1]
    dsimp only
    constructor
    · rintro -; exact Or.inl ((setSpeedM_exit_iff w "all" "40").mp h1)
    · rintro -; rfl

/-- `main` either returns normally or exits with code 1. -/
theorem mainRun_result_cases (w : World) (argv : List String) :
    (mainRun w argv).result = .ret () ∨ (mainRun w argv).result = .exited 1 := by
  unfold mainRun
  cases hI : w.hasIpmitool with
  | false => right; rfl
  | true =>
    simp only [Bool.not_true, Bool.false_eq_true, if_false]
    cases argv with
    | nil => left; rfl
    | cons cmd rest =>
      dsimp only
      by_cases hst : cmd = "status"
      · rw [if_pos hst]
        left
        exact (getStatusM_discard_spec w _).1
      · rw [if_neg hst]
        by_cases hget : cmd = "get"
        · rw [if_pos hget]
          cases rest with
          | nil => left; rfl
          | cons id t => exact getSpeedM_result_cases w id
        · rw [if_neg hget]
          by_cases hset : cmd = "set"
          · rw [if_pos hset]
            cases rest with
            | nil => left; rfl
            | cons id t =>
              cases t with
              | nil => left; rfl
              | cons sp t2 => exact setSpeedM_result_cases w id sp
          · rw [if_neg hset]
            by_cases htr : cmd = "testrun"
            · rw [if_pos htr]
              exact testrunM_result_cases w
            · rw [if_neg htr]
              left; rfl

/-- The exit code is 1 exactly when the run called `os.Exit 1`. -/
theorem exitCodeOf_one_iff {e : Eff Unit}
    (hcases : e.result = .ret () ∨ e.result = .exited 1) :
    exitCodeOf e = 1 ↔ e.result = .exited 1 := by
  unfold exitCodeOf
  rcases hcases with h | h <;> rw [h] <;> simp

/-- Which restore write commands appear in the testrun trace, when every write
invocation succeeds. -/
theorem testrun_restore_char (w : World)
    (hW : ∀ rest, (w.raw ("0x30" :: rest)).isSome = true)
    (name id : String) (hmem : (name, id) ∈ fanIDPairs) (x : String) :
    Call.raw ["0x30", "00", id, x] ∈ (testrunM w).calls ↔
      ∃ sp, (id, sp) ∈ savedSpeedsOf (pwmsOf (w.raw ["0x31"])) ∧
        ∃ n : Int, goAtoi sp = some n ∧ 0 ≤ n ∧ n ≤ 100 ∧
          x = "0x" ++ natToHex n.toNat := by
  obtain ⟨hid, hid0⟩ := fanIDPairs_id_props name id hmem
  have hall : (setSpeedM w "all" "40").calls = [Call.raw ["0x30", "00", "00", "0x28"]] := by
    rw [setSpeedM_calls_eq w "all" "40" 40 (by decide) (by decide) (by decide)]
    rfl
  unfold testrunM
  rw [Eff.andThen_ret (getPWMsM w) _ (pwmsOf (w.raw ["0x31"])) rfl]
  dsimp only
  rw [Eff.andThen_ret _ _ () (setSpeedM_ret_of_writes w hW "all" "40")]
  dsimp only
  rcases hro : w.raw ["0x31"] with _ | o
  · rw [Eff.andThen_exited _ _ 1 (by rw [getSpeedM_01_none w hro])]
    dsimp only
    rw [getSpeedM_01_none w hro, hall,
      show (getPWMsM w).calls = [Call.raw ["0x31"]] from rfl]
    dsimp only
    rw [show savedSpeedsOf (pwmsOf none) = [] from by decide]
    simp only [List.mem_append, List.mem_singleton, List.not_mem_nil, false_and,
      exists_false, iff_false]
    rintro (h | h | h)
    · exact absurd h (by simp)
    · simp only [Call.raw.injEq, List.cons.injEq, and_true, true_and] at h
      exact absurd h.1 hid0
    · exact absurd h (by simp)
  · rw [Eff.andThen_ret _ _ () (getSpeedM_01_some w o hro).2]
    dsimp only
    rw [Eff.andThen_ret _ _ () (getStatusM_discard_spec w false).1]
    dsimp only
    rw [(getSpeedM_01_some w o hro).1, (getStatusM_discard_spec w false).2, hall,
      show (getPWMsM w).calls = [Call.raw ["0x31"]] from rfl]
    simp only [List.mem_append, List.mem_singleton, List.mem_cons, List.not_mem_nil, or_false]
    constructor
    · rintro (h | h | h | (h | h) | h)
      · exact absurd h (by simp)
      · simp only [Call.raw.injEq, List.cons.injEq, and_true, true_and] at h
        exact absurd h.1 hid0
      · exact absurd h (by simp)
      · exact absurd h (by simp)
      · exact absurd h (by simp)
      · rw [runRestores_calls_of_writes w hW] at h
        obtain ⟨p, hp, hcall⟩ := h
        rw [setSpeedM_calls_mem] at hcall
        obtain ⟨n, hn, h0, h100, hceq⟩ := hcall
        obtain ⟨name', hname', -, -, -⟩ := (mem_savedSpeedsOf _ p.1 p.2).mp hp
        obtain ⟨hpid, -⟩ := fanIDPairs_id_props name' p.1 hname'
        rw [hpid] at hceq
        simp only [Call.raw.injEq, List.cons.injEq, and_true, true_and] at hceq
        obtain ⟨hid_eq, hx⟩ := hceq
        subst hid_eq
        exact ⟨p.2, hp, n, hn, h0, h100, hx⟩
    · rintro ⟨sp, hsp, n, hn, h0, h100, hx⟩
      refine Or.inr (Or.inr (Or.inr (Or.inr ?_)))
      rw [runRestores_calls_of_writes w hW]
      refine ⟨(id, sp), hsp, ?_⟩
      rw [setSpeedM_calls_mem]
      exact ⟨n, hn, h0, h100, by rw [hid, hx]⟩

/-- C2 counterexample to the claim as stated: with every invocation healthy
but the fans initially at 120% (a valid, non-"N/A" reading, which `getPWMs`
does not clamp), the restore step of the testrun issues no write for fan 01 (nor
any other fan): the whole trace contains no `0x30` command with id "01",
because `setSpeed` rejects the out-of-range speed 120. -/
theorem C2_testrun_restore_cex :
    (List.lookup "System Fan1" (pwmsOf (wOver.raw ["0x31"]))).getD "" = "120%" ∧
    (mainRun wOver ["testrun"]).calls =
      [Call.raw ["0x31"], Call.raw ["0x30", "00", "00", "0x28"], Call.raw ["0x31"],
       Call.raw ["0x31"], Call.sensorList] :=
  ⟨by decide, by decide⟩

/-- C2 (amended): when the external writes succeed, the testrun restores
every fan whose pre-existing PWM reading was valid (not "N/A", nonempty) and
whose percentage value lies in [0,100] back to exactly that value via an
individual set call, and issues no restore call for a fan whose reading was
"N/A" or absent - nor for one whose percentage is outside [0,100], which
the range check of `setSpeed` rejects. -/
theorem C2_testrun_restore (w : World) (hI : w.hasIpmitool = true)
    (hW : ∀ rest, (w.raw ("0x30" :: rest)).isSome = true)
    (name id : String) (hmem : (name, id) ∈ fanIDPairs) :
    ((List.lookup name (pwmsOf (w.raw ["0x31"]))).getD "" = "N/A" ∨
        (List.lookup name (pwmsOf (w.raw ["0x31"]))).getD "" = "" →
      ∀ x, Call.raw ["0x30", "00", id, x] ∉ (mainRun w ["testrun"]).calls) ∧
    (∀ pwmStr, (List.lookup name (pwmsOf (w.raw ["0x31"]))).getD "" = pwmStr →
      pwmStr ≠ "N/A" → pwmStr ≠ "" →
      (∀ n : Int, goAtoi (goTrimSuffix pwmStr "%") = some n →
        (0 ≤ n → n ≤ 100 →
          Call.raw ["0x30", "00", id, "0x" ++ natToHex n.toNat] ∈
            (mainRun w ["testrun"]).calls) ∧
        (n < 0 ∨ 100 < n →
          ∀ x, Call.raw ["0x30", "00", id, x] ∉ (mainRun w ["testrun"]).calls)) ∧
      (goAtoi (goTrimSuffix pwmStr "%") = none →
        ∀ x, Call.raw ["0x30", "00", id, x] ∉ (mainRun w ["testrun"]).calls)) := by
  rw [mainRun_testrun w hI []]
  have char := testrun_restore_char w hW name id hmem
  constructor
  · rintro hbad x hmemx
    obtain ⟨sp, hsp, -⟩ := (char x).mp hmemx
    obtain ⟨name', hname', hNA, hne, -⟩ := (mem_savedSpeedsOf _ id sp).mp hsp
    have he : name' = name := fanIDPairs_id_inj name' name id hname' hmem
    subst he
    rcases hbad with hbad | hbad
    · exact hNA hbad
    · exact hne hbad
  · intro pwmStr hpw hNA hne
    have hsaved : (id, goTrimSuffix pwmStr "%") ∈ savedSpeedsOf (pwmsOf (w.raw ["0x31"])) := by
      rw [mem_savedSpeedsOf]
      exact ⟨name, hmem, by rw [hpw]; exact hNA, by rw [hpw]; exact hne, by rw [hpw]⟩
    refine ⟨?_, ?_⟩
    · intro n hn
      refine ⟨?_, ?_⟩
      · intro h0 h100
        exact (char _).mpr ⟨goTrimSuffix pwmStr "%", hsaved, n, hn, h0, h100, rfl⟩
      · rintro hr x hx
        obtain ⟨sp, hsp, m, hm, h0, h100, -⟩ := (char x).mp hx
        obtain ⟨name', hname', -, -, hspv⟩ := (mem_savedSpeedsOf _ id sp).mp hsp
        have he : name' = name := fanIDPairs_id_inj name' name id hname' hmem
        subst he
        rw [hpw] at hspv
        rw [hspv, hn] at hm
        injection hm with he2
        subst he2
        rcases hr with hr | hr <;> omega
    · intro hnone x hx
      obtain ⟨sp, hsp, m, hm, -, -, -⟩ := (char x).mp hx
      obtain ⟨name', hname', -, -, hspv⟩ := (mem_savedSpeedsOf _ id sp).mp hsp
      have he : name' = name := fanIDPairs_id_inj name' name id hname' hmem
      subst he
      rw [hpw] at hspv
      rw [hspv, hnone] at hm
      exact absurd hm (by simp)

/-- Witness for the amended C2: in the healthy world, the saved 50% of fan 01 is
restored by an individual write of 0x32. -/
theorem C2_testrun_restore_witness :
    Call.raw ["0x30", "00", "01", "0x" ++ natToHex (50 : Int).toNat] ∈
      (mainRun wOK ["testrun"]).calls :=
  (((C2_testrun_restore wOK rfl (fun _ => rfl) "System Fan1" "01" (by decide)).2
      "50%" (by decide) (by decide) (by decide)).1 50 (by decide)).1 (by decide) (by decide)

/-- C9: the process exits 0 on success and on handled user errors, and exits 1
exactly when the underlying tool invocation fails during a get or set
(directly, or inside the testrun choreography), or when `ipmitool` is missing
from the search path at startup. -/
theorem C9_exit_codes (w : World) (argv : List String) :
    (exitCodeOf (mainRun w argv) = 0 ∨ exitCodeOf (mainRun w argv) = 1) ∧
    (w.hasIpmitool = false → exitCodeOf (mainRun w argv) = 1) ∧
    (w.hasIpmitool = true →
      (argv = [] → exitCodeOf (mainRun w argv) = 0) ∧
      (∀ cmd rest, argv = cmd :: rest → cmd ≠ "get" → cmd ≠ "set" → cmd ≠ "testrun" →
        exitCodeOf (mainRun w argv) = 0) ∧
      (argv = ["get"] → exitCodeOf (mainRun w argv) = 0) ∧
      (∀ id rest, argv = "get" :: id :: rest →
        (exitCodeOf (mainRun w argv) = 1 ↔ getFails w id)) ∧
      ((argv = ["set"] ∨ ∃ y, argv = ["set", y]) → exitCodeOf (mainRun w argv) = 0) ∧
      (∀ id sp rest, argv = "set" :: id :: sp :: rest →
        (exitCodeOf (mainRun w argv) = 1 ↔ setFails w id sp)) ∧
      (∀ rest, argv = "testrun" :: rest →
        (exitCodeOf (mainRun w argv) = 1 ↔ testrunFails w))) := by
  refine ⟨?_, ?_, ?_⟩
  · rcases mainRun_result_cases w argv with h | h
    · left; unfold exitCodeOf; rw [h]
    · right; unfold exitCodeOf; rw [h]
  · intro hIf
    unfold mainRun
    rw [hIf]
    rfl
  · intro hI
    have hred : ∀ cmd rest, mainRun w (cmd :: rest) =
        (if cmd = "status" then (getStatusM w (rest.headD "" == "--json")).discard
         else if cmd = "get" then
           match rest with
           | [] => ⟨[], ["Error: Missing arguments. Example: rd450x-fan-control get 01"], .ret ()⟩
           | id :: _ => getSpeedM w id
         else if cmd = "set" then
           match rest with
           | id :: sp :: _ => setSpeedM w id sp
           | _ => ⟨[], ["Error: Missing arguments. Example: rd450x-fan-control set all 50"], .ret ()⟩
         else if cmd = "testrun" then testrunM w
         else ⟨[], ["Error: Unknown command " ++ sq ++ cmd ++ sq], .ret ()⟩) := by
      intro cmd rest
      unfold mainRun
      rw [hI]
      rfl
    refine ⟨?_, ?_, ?_, ?_, ?_, ?_, ?_⟩
    · rintro rfl
      unfold mainRun
      rw [hI]
      rfl
    · rintro cmd rest rfl hget hset htr
      rw [hred]
      by_cases hst : cmd = "status"
      · rw [if_pos hst]
        have h := (getStatusM_discard_spec w (rest.headD "" == "--json")).1
        unfold exitCodeOf
        rw [h]
      · rw [if_neg hst, if_neg hget, if_neg hset, if_neg htr]
        rfl
    · rintro rfl
      rw [hred]
      rfl
    · rintro id rest rfl
      rw [hred]
      rw [if_neg (by decide), if_pos rfl]
      rw [exitCodeOf_one_iff (getSpeedM_result_cases w id), getSpeedM_exit_iff]
    · rintro (rfl | ⟨y, rfl⟩) <;> (rw [hred]; rfl)
    · rintro id sp rest rfl
      rw [hred]
      rw [if_neg (by decide), if_neg (by decide), if_pos rfl]
      rw [exitCodeOf_one_iff (setSpeedM_result_cases w id sp), setSpeedM_exit_iff]
    · rintro rest rfl
      rw [mainRun_testrun w hI rest]
      rw [exitCodeOf_one_iff (testrunM_result_cases w), testrunM_exit_iff]

/-- Witness for C9: a missing `ipmitool` exits 1; a failing raw read during
`get 01` exits 1; a healthy `get 01` exits 0. -/
theorem C9_exit_codes_witness :
    exitCodeOf (mainRun ⟨false, fun _ => none, none⟩ ["status"]) = 1 ∧
    exitCodeOf (mainRun ⟨true, fun _ => none, none⟩ ["get", "01"]) = 1 ∧
    exitCodeOf (mainRun wOK ["get", "01"]) = 0 := by
  refine ⟨(C9_exit_codes ⟨false, fun _ => none, none⟩ ["status"]).2.1 rfl, ?_, ?_⟩
  · exact (((C9_exit_codes ⟨true, fun _ => none, none⟩ ["get", "01"]).2.2 rfl).2.2.2.1
      "01" [] rfl).mpr ⟨by decide, ⟨1, by decide, by decide, by decide⟩, rfl⟩
  · have h := (((C9_exit_codes wOK ["get", "01"]).2.2 rfl).2.2.2.1 "01" [] rfl)
    rcases (C9_exit_codes wOK ["get", "01"]).1 with h0 | h1
    · exact h0
    · exfalso
      obtain ⟨-, -, hraw⟩ := h.mp h1
      exact absurd hraw (by decide)

/-- Witness for C10 at a concrete world whose sensor-list invocation fails. -/
theorem C10_status_sensor_failure_witness :
    getStatusM ⟨true, fun _ => some "20 32 32 32 32 4b 4b", none⟩ true =
      ⟨[Call.raw ["0x31"], Call.sensorList], ["Error fetching sensor data"], .ret none⟩ ∧
    exitCodeOf (mainRun ⟨true, fun _ => some "20 32 32 32 32 4b 4b", none⟩ ["status", "--json"]) = 0 :=
  C10_status_sensor_failure ⟨true, fun _ => some "20 32 32 32 32 4b 4b", none⟩ true
    ["--json"] rfl rfl

end RD450X
